import Mathlib

/-!
Verification of the rag-search pipeline (handlers/rag_search.py and
services/web.py) against its natural-language specification.

The Python code is shallowly embedded: search results are records, Python
dicts are modelled as functions built by left folds (later assignments win),
network and vector-index collaborators (aiohttp, the document store and
query services, the search provider) are oracle parameters, and every
fallible call is `Except`-valued.  Scores are rationals; string lengths are
character counts, as in Python.
-/

namespace RagSearch

/-- A search result record: the dict produced by the search provider, with the
fields the pipeline touches (`uuid`, `link`, `title`, `snippet`, `score`) and an
optional `content` field that Detail-Fetch and Filter may set. -/
structure Result where
  uuid : String
  link : String
  title : String
  snippet : String
  score : ℚ
  content : Option String
deriving Repr, DecidableEq

/-- A match record returned by the vector-index query (`query_results`): the
pipeline reads its `uuid`, `score` and `content` fields. -/
structure MatchRes where
  uuid : String
  score : ℚ
  content : String
deriving Repr, DecidableEq

/-- The fields of a `Result` other than `content`; used to state frame
properties (a stage changed nothing but `content`). -/
def stripContent (r : Result) : String × String × String × String × ℚ :=
  (r.uuid, r.link, r.title, r.snippet, r.score)

/-- The fields of a `Result` other than `score`; used to state that Rerank
changes nothing but `score`. -/
def stripScore (r : Result) : String × String × String × String × Option String :=
  (r.uuid, r.link, r.title, r.snippet, r.content)

/-! ### services/web.py -/

/-- `re.sub` for a pattern that is a plain literal string: replace the
left-most non-overlapping occurrences of `pat` by `repl`, scanning left to
right.  The fuel argument makes the recursion structural; `subLit` instantiates
it with the length of the input, which is always enough. -/
def subLitFuel (pat repl : List Char) : ℕ → List Char → List Char
  | _, [] => []
  | 0, l => l
  | fuel + 1, c :: cs =>
    if pat.isPrefixOf (c :: cs) ∧ pat ≠ [] then
      repl ++ subLitFuel pat repl fuel ((c :: cs).drop pat.length)
    else
      c :: subLitFuel pat repl fuel cs

/-- `re.sub(pat, repl, s)` where the compiled pattern matches only the literal
character sequence `pat`. -/
def subLit (pat repl s : String) : String :=
  String.mk (subLitFuel pat.data repl.data s.data.length s.data)

/-- The normalization step of `fetch_markdown`:
`markdown = re.sub(r'\n\x7b2,n\x7d', '\n', markdown)`.
The repetition `\x7b2,n\x7d` is not a valid regex quantifier (`n` is not a
number), so Python's `re` treats the braces literally: the compiled pattern
matches a newline character followed by the five literal characters
`\x7b2,n\x7d`, and each such occurrence is replaced by a single newline. -/
def normalizeContent (markdown : String) : String :=
  subLit "\n\x7b2,n\x7d" "\n" markdown

/-- Collapse each run of two or more consecutive newline characters to a
single newline. -/
def squeezeLF : List Char → List Char
  | [] => []
  | '\n' :: '\n' :: cs => squeezeLF ('\n' :: cs)
  | c :: cs => c :: squeezeLF cs

/-- Modelled from the spec: "collapse runs of 2+ consecutive blank lines down
to a single line break" — the behaviour the normalization step in
`fetch_markdown` is specified to have (what `re.sub` with the quantifier
`\x7b2,\x7d` would do). -/
def collapseNewlinesSpec (s : String) : String :=
  String.mk (squeezeLF s.data)

/-- `html_to_markdown`: the conversion oracle `convO` models the `html2text`
call, which either produces markdown or raises; the function catches any
exception and returns the empty string. -/
def html_to_markdown (convO : String → Except Unit String) (html : String) : String :=
  match convO html with
  | .ok md => md
  | .error _ => ""

/-- `fetch_markdown`: the fetch oracle `fetchO` models `fetch_url`, whose
`session.get` may raise (`.error`) or yield a body (`.ok html`; an HTTP error
status is caught inside `fetch_url` and yields `.ok ""`).  On the success path
the html is converted and normalized; any exception is caught and the pair
`(url, "")` is returned. -/
def fetch_markdown (fetchO : String → Except Unit String)
    (convO : String → Except Unit String) (url : String) : String × String :=
  match fetchO url with
  | .error _ => (url, "")
  | .ok html => (url, normalizeContent (html_to_markdown convO html))

/-- `batch_fetch_urls`: one `fetch_markdown` task per url, gathered in input
order.  The tasks themselves never raise (every exception is caught inside
`fetch_markdown`), so the gather is a plain map. -/
def batch_fetch_urls (fetchO : String → Except Unit String)
    (convO : String → Except Unit String) (urls : List String) : List (String × String) :=
  urls.map (fetch_markdown fetchO convO)

/-! ### handlers/rag_search.py -/

/-- The `score_maps` dict of `reranking`: `score_maps[result["uuid"]] = result["score"]`
over the match results in order, a later assignment to the same uuid winning. -/
def scoreMapOf (ms : List MatchRes) : String → Option ℚ :=
  ms.foldl (fun m r => fun k => if k = r.uuid then some r.score else m k) (fun _ => none)

/-- The score-update loop of `reranking`: every result whose uuid is in
`score_maps` gets that score; all other fields are untouched. -/
def applyScores (ms : List MatchRes) (results : List Result) : List Result :=
  results.map fun r =>
    match scoreMapOf ms r.uuid with
    | some s => { r with score := s }
    | none => r

/-- The sort key of `reranking`: `sorted(..., key=lambda x: x['score'], reverse=True)`
compares by score descending; Python's `sorted` is stable, as is `mergeSort`. -/
def scoreDesc (a b : Result) : Bool := decide (b.score ≤ a.score)

/-- `reranking`: `store_results`/`query_results` (services not present in this
repository's sources) are the oracle `idxO`, which may raise (`.error`) or
return the match results.  On success the scores are written back and the list
is stably sorted by score descending; a raised exception propagates before any
result is modified, since the index calls precede the update loops. -/
def reranking (idxO : List Result → Except String (List MatchRes))
    (results : List Result) : Except String (List Result) :=
  match idxO results with
  | .error e => .error e
  | .ok ms => .ok ((applyScores ms results).mergeSort scoreDesc)

/-- The url-collection loop of `fetch_details`: walk the results in order,
breaking as soon as strictly more than `top_k` links are collected, and
appending the link of every result whose score is at least `min_score`. -/
def collectUrlsGo (min_score : ℚ) (top_k : ℕ) : List Result → List String → List String
  | [], urls => urls
  | r :: rs, urls =>
    if urls.length > top_k then urls
    else if min_score ≤ r.score then collectUrlsGo min_score top_k rs (urls ++ [r.link])
    else collectUrlsGo min_score top_k rs urls

/-- The `content_maps` dict of `fetch_details`: `content_maps[url] = content`
over the fetched pairs in order, a later assignment to the same url winning. -/
def dictOf (pairs : List (String × String)) : String → Option String :=
  pairs.foldl (fun m p => fun k => if k = p.1 then some p.2 else m k) (fun _ => none)

/-- `fetch_details`: collect the candidate urls, batch-fetch them, build the
url-to-content dict, and set `content` on every result whose link is in the
dict; the list itself is returned unchanged in length and order. -/
def fetch_details (fetchO : String → Except Unit String)
    (convO : String → Except Unit String) (results : List Result)
    (min_score : ℚ) (top_k : ℕ) : List Result :=
  let urls := collectUrlsGo min_score top_k results []
  let details := batch_fetch_urls fetchO convO urls
  let content_maps := dictOf details
  results.map fun r =>
    match content_maps r.link with
    | some c => { r with content := some c }
    | none => r

/-- The guard of the `results_with_content` pre-filter in `filter_content`:
`"content" in result and len(result["content"]) > len(result["snippet"])`. -/
def hasRicherContent (r : Result) : Bool :=
  match r.content with
  | some c => r.snippet.length < c.length
  | none => false

/-- The `content_maps` dict of `filter_content`: for each match in order, a
uuid seen for the first time is assigned the EMPTY string, and only later
matches with the same uuid have their content appended. -/
def contentMapOf (ms : List MatchRes) : String → Option String :=
  ms.foldl
    (fun m r =>
      match m r.uuid with
      | none => fun k => if k = r.uuid then some "" else m k
      | some s => fun k => if k = r.uuid then some (s ++ r.content) else m k)
    (fun _ => none)

/-- `filter_content`: pre-filter the results that carry content longer than
their snippet, query the index over them (`store_results`/`query_results`
modelled by the oracle `idxO`, which receives `filter_min_score` and
`filter_top_k` and may raise), accumulate returned content per uuid, and write
the accumulated content onto every result whose uuid is in the dict; the list
is returned unchanged in length and order. -/
def filter_content (idxO : List Result → ℚ → ℕ → Except String (List MatchRes))
    (results : List Result) (filter_min_score : ℚ) (filter_top_k : ℕ) :
    Except String (List Result) :=
  let results_with_content := results.filter hasRicherContent
  match idxO results_with_content filter_min_score filter_top_k with
  | .error e => .error e
  | .ok ms =>
    let content_maps := contentMapOf ms
    .ok (results.map fun r =>
      match content_maps r.uuid with
      | some c => { r with content := some c }
      | none => r)

/-- The request model `RagSearchReq` with its defaults. -/
structure RagSearchReq where
  query : String
  locale : String := ""
  search_n : ℕ := 10
  search_provider : String := "google"
  is_reranking : Bool := false
  is_detail : Bool := false
  detail_top_k : ℕ := 6
  detail_min_score : ℚ := 7/10
  is_filter : Bool := false
  filter_min_score : ℚ := 8/10
  filter_top_k : ℕ := 6
deriving Repr, DecidableEq

/-- The collaborators the endpoint can call, recorded in a trace. -/
inductive Call where
  | search
  | rerankIdx
  | fetchUrls
  | filterIdx
deriving Repr, DecidableEq

/-- The endpoint's response: `resp_err` with a message, or `resp_data` carrying
the final `search_results`. -/
inductive Resp where
  | err : String → Resp
  | data : List Result → Resp
deriving Repr, DecidableEq

/-- The external collaborators as oracles: the search provider (stage 1), the
vector index used by Rerank and by Filter, and the fetch/conversion effects
used by Detail-Fetch. -/
structure Oracles where
  searchO : String → ℕ → String → Except String (List Result)
  rerankIdxO : List Result → Except String (List MatchRes)
  fetchO : String → Except Unit String
  convO : String → Except Unit String
  filterIdxO : List Result → ℚ → ℕ → Except String (List MatchRes)

/-- Key extraction in `rag_search`: `apiKey = ""`, and when an authorization
header is present, `apiKey = authorization.replace("Bearer ", "")` — Python's
`str.replace` removes every occurrence of the literal `"Bearer "`. -/
def extractApiKey (authorization : Option String) : String :=
  match authorization with
  | some a => subLit "Bearer " "" a
  | none => ""

/-- The comparison `apiKey != authApiKey` of `rag_search`, negated: `apiKey` is
always a Python `str`, and `authApiKey = os.getenv("AUTH_API_KEY")` is a `str`
or `None`; a `str` never equals `None`, so a missing environment secret can
never match. -/
def keyMatches (apiKey : String) (authApiKey : Option String) : Bool :=
  match authApiKey with
  | none => false
  | some k => apiKey == k

/-- The `/rag-search` endpoint: authentication, query validation, then the
four stages.  Stage 1 failure is fatal; a Rerank or Filter exception is caught
and the stage's input is kept; Detail-Fetch is total in this model because
every per-url exception is caught inside `fetch_markdown`.  The returned trace
lists the collaborators that were called, in order. -/
def rag_search (o : Oracles) (authApiKey : Option String)
    (authorization : Option String) (req : RagSearchReq) : Resp × List Call :=
  let apiKey := extractApiKey authorization
  if keyMatches apiKey authApiKey = false then (Resp.err "Access Denied", [])
  else if req.query = "" then (Resp.err "invalid params", [])
  else
    match o.searchO req.query req.search_n req.locale with
    | .error e => (Resp.err ("get search results failed: " ++ e), [Call.search])
    | .ok sr1 =>
      let stage2 :=
        if req.is_reranking then
          match reranking o.rerankIdxO sr1 with
          | .ok r => (r, [Call.search, Call.rerankIdx])
          | .error _ => (sr1, [Call.search, Call.rerankIdx])
        else (sr1, [Call.search])
      let stage3 :=
        if req.is_detail then
          (fetch_details o.fetchO o.convO stage2.1 req.detail_min_score req.detail_top_k,
            stage2.2 ++ [Call.fetchUrls])
        else stage2
      let stage4 :=
        if req.is_filter then
          match filter_content o.filterIdxO stage3.1 req.filter_min_score req.filter_top_k with
          | .ok r => (r, stage3.2 ++ [Call.filterIdx])
          | .error _ => (stage3.1, stage3.2 ++ [Call.filterIdx])
        else stage3
      (Resp.data stage4.1, stage4.2)

/-! ### Concrete inputs used by the witnesses and counterexamples -/

/-- Oracles whose every call succeeds with an empty payload. -/
def quietOracles : Oracles :=
  ⟨fun _ _ _ => .ok [], fun _ => .ok [], fun _ => .ok "", fun _ => .ok "", fun _ _ _ => .ok []⟩

/-- A concrete result whose content is longer than its snippet. -/
def c1Res : Result := ⟨"u1", "http://a", "t", "snip", 1, some "a much longer content body"⟩

/-- A concrete index match for `c1Res`. -/
def c1Match : MatchRes := ⟨"u1", 1, "hello"⟩

/-- A concrete result used by the C3 witness. -/
def c3Res : Result := ⟨"u3", "http://c", "t", "s", 1, none⟩

/-- A concrete result used by the C4 witness. -/
def c4Res : Result := ⟨"u4", "http://d", "t", "s", 1, none⟩

/-- A concrete result used by the C6 witness. -/
def c6Res : Result := ⟨"u6", "http://f", "t", "s", 1, none⟩

/-- A fetch oracle that raises on url "a" and succeeds on every other url. -/
def c7Fetch : String → Except Unit String :=
  fun u => if u = "a" then Except.error () else Except.ok "body"

/-- A fetch oracle that succeeds on every url. -/
def c7FetchOk : String → Except Unit String := fun _ => Except.ok "body"

/-- A conversion oracle that returns the html unchanged. -/
def c7Conv : String → Except Unit String := fun s => Except.ok s

/-- A concrete result used by the C9 witness. -/
def c9Res : Result := ⟨"u9", "http://i", "t", "s", 1, some "c"⟩

/-- Oracles whose rerank index call raises while the search succeeds. -/
def c9Oracles : Oracles :=
  ⟨fun _ _ _ => .ok [c9Res], fun _ => .error "index down",
    fun _ => .ok "", fun _ => .ok "", fun _ _ _ => .ok []⟩

/-! ### Theorems -/

/-- C10: when the AUTH_API_KEY environment variable is absent, the endpoint
returns the access-denied error for every authorization header (including a
missing one) and calls no collaborator: the extracted string key can never
equal the absent secret. -/
theorem c10_absent_secret_always_denies (o : Oracles) (authorization : Option String)
    (req : RagSearchReq) :
    rag_search o none authorization req = (Resp.err "Access Denied", []) := by
  simp [rag_search, keyMatches]

/-- C8: a failed bearer-credential check returns the access-denied error with
no collaborator called, whatever the query is (so authentication is checked
before query validation), and with authentication passed an empty query
returns the invalid-params error, again with no collaborator called. -/
theorem c8_auth_and_validation_short_circuit (o : Oracles)
    (authApiKey authorization : Option String) (req : RagSearchReq) :
    (keyMatches (extractApiKey authorization) authApiKey = false →
      rag_search o authApiKey authorization req = (Resp.err "Access Denied", [])) ∧
    (keyMatches (extractApiKey authorization) authApiKey = true → req.query = "" →
      rag_search o authApiKey authorization req = (Resp.err "invalid params", [])) := by
  constructor
  · intro h
    simp [rag_search, h]
  · intro h hq
    simp [rag_search, h, hq]

/-- Witness for C8 at concrete requests: a wrong bearer key is denied even
with an empty query, and a correct key with an empty query is rejected as
invalid params; in both cases the trace of collaborator calls is empty. -/
theorem c8_auth_and_validation_short_circuit_witness :
    rag_search quietOracles (some "secret") (some "Bearer wrong") { query := "" }
      = (Resp.err "Access Denied", []) ∧
    rag_search quietOracles (some "secret") (some "Bearer secret") { query := "" }
      = (Resp.err "invalid params", []) :=
  ⟨(c8_auth_and_validation_short_circuit quietOracles (some "secret")
      (some "Bearer wrong") { query := "" }).1 (by decide),
   (c8_auth_and_validation_short_circuit quietOracles (some "secret")
      (some "Bearer secret") { query := "" }).2 (by decide) rfl⟩

/-- C9: with reranking enabled, when the Rerank index call raises, the
endpoint carries the stage-1 result set forward exactly as it was — no score,
order or other field modified — because the fallible index calls precede every
update in `reranking`. -/
theorem c9_rerank_failure_is_atomic (o : Oracles) (authApiKey authorization : Option String)
    (req : RagSearchReq) (sr1 : List Result) (e : String)
    (hauth : keyMatches (extractApiKey authorization) authApiKey = true)
    (hq : ¬ req.query = "")
    (hs : o.searchO req.query req.search_n req.locale = Except.ok sr1)
    (hr : req.is_reranking = true)
    (he : o.rerankIdxO sr1 = Except.error e)
    (hd : req.is_detail = false) (hf : req.is_filter = false) :
    rag_search o authApiKey authorization req
      = (Resp.data sr1, [Call.search, Call.rerankIdx]) := by
  simp [rag_search, hauth, hq, hs, hr, he, hd, hf, reranking]

/-- Witness for C9: a concrete request whose rerank index call raises returns
the stage-1 results untouched. -/
theorem c9_rerank_failure_is_atomic_witness :
    rag_search c9Oracles (some "k") (some "Bearer k")
        { query := "q", is_reranking := true }
      = (Resp.data [c9Res], [Call.search, Call.rerankIdx]) :=
  c9_rerank_failure_is_atomic c9Oracles (some "k") (some "Bearer k")
    { query := "q", is_reranking := true } [c9Res] "index down"
    (by decide) (by decide) rfl rfl rfl rfl rfl

/-- C1 fails on the code: for an identifier appearing exactly once in the
match results, `filter_content` stores the EMPTY string (not the match's
content `"hello"`), and for an identifier appearing twice it stores only the
second match's content (not the concatenation `"hello" ++ "world"`): the
first branch of the accumulation initialises the dict entry to `""` and drops
the first match's content. -/
theorem c1_filter_accumulation_refuted :
    filter_content (fun _ _ _ => Except.ok [c1Match]) [c1Res] 1 6
      = Except.ok [{ c1Res with content := some "" }] ∧
    filter_content (fun _ _ _ => Except.ok [c1Match, ⟨"u1", 1, "world"⟩]) [c1Res] 1 6
      = Except.ok [{ c1Res with content := some "world" }] ∧
    c1Match.content = "hello" :=
  ⟨rfl, rfl, rfl⟩

/-- C2 fails on the code: the converted text "a\n\nb" contains a run of two
line breaks, yet `fetch_markdown` returns it unchanged, because the malformed
quantifier makes the pattern match only the literal text `\n\x7b2,n\x7d`; the
specified collapse (`collapseNewlinesSpec`) would give "a\nb". -/
theorem c2_newline_collapse_refuted :
    fetch_markdown (fun _ => Except.ok "<p>") (fun _ => Except.ok "a\n\nb") "http://a"
      = ("http://a", "a\n\nb") ∧
    normalizeContent "a\n\nb" = "a\n\nb" ∧
    collapseNewlinesSpec "a\n\nb" = "a\nb" ∧
    normalizeContent "a\n\x7b2,n\x7db" = "a\nb" :=
  ⟨rfl, rfl, rfl, rfl⟩

/-- C5: Detail-Fetch preserves the length, the order and every field except
`content` (the per-position tuples of uuid, link, title, snippet and score are
unchanged), and at every position `content` is set to the dict entry for the
result's link when the link is in the fetched link-to-content dict and is left
untouched otherwise. -/
theorem c5_fetch_details_frame (fetchO convO : String → Except Unit String)
    (results : List Result) (min_score : ℚ) (top_k : ℕ) :
    (fetch_details fetchO convO results min_score top_k).map stripContent
      = results.map stripContent ∧
    ∀ i : ℕ,
      ((fetch_details fetchO convO results min_score top_k)[i]?).map Result.content
        = (results[i]?).map fun r =>
            match dictOf (batch_fetch_urls fetchO convO
                (collectUrlsGo min_score top_k results [])) r.link with
            | some c => some c
            | none => r.content := by
  constructor
  · rw [fetch_details, List.map_map]
    refine List.map_congr_left fun r _ => ?_
    cases h : dictOf (batch_fetch_urls fetchO convO
        (collectUrlsGo min_score top_k results [])) r.link <;>
      simp [stripContent, h]
  · intro i
    rw [fetch_details, List.getElem?_map]
    cases results[i]? with
    | none => rfl
    | some r =>
      cases h : dictOf (batch_fetch_urls fetchO convO
          (collectUrlsGo min_score top_k results [])) r.link <;>
        simp [h]

/-- C6: on success, Filter returns a list of exactly the same length and
order, never changing any field but `content`, and every result whose uuid is
not in the accumulated content map passes through completely unchanged. -/
theorem c6_filter_content_frame (idxO : List Result → ℚ → ℕ → Except String (List MatchRes))
    (results out : List Result) (fms : ℚ) (ftk : ℕ) (ms : List MatchRes)
    (hms : idxO (results.filter hasRicherContent) fms ftk = Except.ok ms)
    (hout : filter_content idxO results fms ftk = Except.ok out) :
    out.length = results.length ∧
    out.map stripContent = results.map stripContent ∧
    ∀ i : ℕ, ∀ r : Result, results[i]? = some r → contentMapOf ms r.uuid = none →
      out[i]? = some r := by
  rw [filter_content] at hout
  simp only [hms, Except.ok.injEq] at hout
  subst hout
  refine ⟨by simp, ?_, ?_⟩
  · rw [List.map_map]
    refine List.map_congr_left fun r _ => ?_
    cases h : contentMapOf ms r.uuid <;> simp [stripContent, h]
  · intro i r hi hnone
    rw [List.getElem?_map, hi]
    simp [hnone]

/-- Witness for C6 at a concrete input: with an index returning no matches,
the single result passes through Filter unchanged. -/
theorem c6_filter_content_frame_witness :
    ([c6Res] : List Result)[0]? = some c6Res :=
  (c6_filter_content_frame (fun _ _ _ => Except.ok []) [c6Res] [c6Res] 1 6 []
      rfl rfl).2.2 0 c6Res rfl rfl

/-- C7: the batch returns exactly one `(url, outcome)` pair per input url in
input order; a url whose fetch raises yields the pair `(url, "")` instead of
raising out of the batch; and the pair at each position depends only on the
oracles' behaviour at that url, so a sibling url's failure cannot change it. -/
theorem c7_batch_per_url_isolation (fetchO convO : String → Except Unit String)
    (urls : List String) :
    (batch_fetch_urls fetchO convO urls).length = urls.length ∧
    (∀ i : ℕ, ((batch_fetch_urls fetchO convO urls)[i]?).map Prod.fst = urls[i]?) ∧
    (∀ u e, fetchO u = Except.error e → fetch_markdown fetchO convO u = (u, "")) ∧
    (∀ (fetchO2 convO2 : String → Except Unit String) (i : ℕ) (u : String),
      urls[i]? = some u → fetchO u = fetchO2 u → (∀ s, convO s = convO2 s) →
      (batch_fetch_urls fetchO2 convO2 urls)[i]?
        = (batch_fetch_urls fetchO convO urls)[i]?) := by
  refine ⟨by simp [batch_fetch_urls], ?_, ?_, ?_⟩
  · intro i
    rw [batch_fetch_urls, List.getElem?_map]
    cases urls[i]? with
    | none => rfl
    | some u =>
      cases h : fetchO u <;> simp [fetch_markdown, h]
  · intro u e h
    simp [fetch_markdown, h]
  · intro fetchO2 convO2 i u hi hfetch hconv
    rw [batch_fetch_urls, batch_fetch_urls, List.getElem?_map, List.getElem?_map, hi]
    have heq : fetch_markdown fetchO2 convO2 u = fetch_markdown fetchO convO u := by
      rw [fetch_markdown, fetch_markdown, ← hfetch]
      cases fetchO u with
      | error e => rfl
      | ok html =>
        simp only [html_to_markdown, hconv html]
    simp only [Option.map_some', heq]

/-- Witness for C7 at a concrete batch: url "a" fails and yields `("a", "")`,
and the pair for the sibling url "b" is identical whether or not "a" fails. -/
theorem c7_batch_per_url_isolation_witness :
    fetch_markdown c7Fetch c7Conv "a" = ("a", "") ∧
    (batch_fetch_urls c7FetchOk c7Conv ["a", "b"])[1]?
      = (batch_fetch_urls c7Fetch c7Conv ["a", "b"])[1]? :=
  ⟨(c7_batch_per_url_isolation c7Fetch c7Conv ["a", "b"]).2.2.1 "a" () (by simp [c7Fetch]),
   (c7_batch_per_url_isolation c7Fetch c7Conv ["a", "b"]).2.2.2 c7FetchOk c7Conv 1 "b"
      rfl (by simp [c7Fetch, c7FetchOk]) fun _ => rfl⟩

/-- Characterization of the url-collection loop of `fetch_details`: starting
from an accumulator not longer than `top_k + 1`, the loop appends exactly the
first `top_k + 1 - urls.length` links of the qualifying results, in order. -/
theorem collectUrlsGo_characterization (min_score : ℚ) (top_k : ℕ) :
    ∀ (rs : List Result) (urls : List String), urls.length ≤ top_k + 1 →
      collectUrlsGo min_score top_k rs urls
        = urls ++ (((rs.filter fun r => decide (min_score ≤ r.score)).map
            Result.link).take (top_k + 1 - urls.length))
  | [], urls, _ => by simp [collectUrlsGo]
  | r :: rs, urls, h => by
    rw [collectUrlsGo]
    by_cases hb : urls.length > top_k
    · have h0 : top_k + 1 - urls.length = 0 := by omega
      simp [hb, h0]
    · have hlen : urls.length + 1 ≤ top_k + 1 := by omega
      have hsucc : top_k + 1 - urls.length = (top_k + 1 - (urls.length + 1)) + 1 := by omega
      by_cases hs : min_score ≤ r.score
      · rw [if_neg hb, if_pos hs,
          collectUrlsGo_characterization min_score top_k rs (urls ++ [r.link])
            (by simpa using hlen)]
        simp [List.filter_cons, hs, hsucc, List.take_succ_cons]
      · rw [if_neg hb, if_neg hs,
          collectUrlsGo_characterization min_score top_k rs urls h]
        simp [List.filter_cons, hs]

/-- C3: candidate selection collects the links of the first qualifying results
in order (the first `top_k + 1` links of the results with score at least
`min_score`), so at most `top_k + 1` links are selected, and exactly
`top_k + 1` when at least that many results qualify. -/
theorem c3_candidate_selection (results : List Result) (min_score : ℚ) (top_k : ℕ) :
    collectUrlsGo min_score top_k results []
      = ((results.filter fun r => decide (min_score ≤ r.score)).map
          Result.link).take (top_k + 1) ∧
    (collectUrlsGo min_score top_k results []).length ≤ top_k + 1 ∧
    (top_k + 1 ≤ (results.filter fun r => decide (min_score ≤ r.score)).length →
      (collectUrlsGo min_score top_k results []).length = top_k + 1) := by
  have hc := collectUrlsGo_characterization min_score top_k results [] (by simp)
  simp only [List.nil_append, List.length_nil, Nat.sub_zero] at hc
  refine ⟨hc, ?_, fun hq => ?_⟩
  · rw [hc]
    simp [List.length_take]
  · rw [hc]
    simp only [List.length_take, List.length_map]
    omega

/-- Witness for C3: with `top_k = 1` and three qualifying results, exactly two
links are collected. -/
theorem c3_candidate_selection_witness :
    (collectUrlsGo 0 1 [c3Res, c3Res, c3Res] []).length = 1 + 1 :=
  (c3_candidate_selection [c3Res, c3Res, c3Res] 0 1).2.2 (by decide)

/-- The descending score comparison is transitive. -/
theorem scoreDesc_trans : ∀ a b c : Result,
    scoreDesc a b = true → scoreDesc b c = true → scoreDesc a c = true := by
  intro a b c hab hbc
  simp only [scoreDesc, decide_eq_true_eq] at *
  exact le_trans hbc hab

/-- The descending score comparison is total. -/
theorem scoreDesc_total : ∀ a b : Result, (scoreDesc a b || scoreDesc b a) = true := by
  intro a b
  simp only [scoreDesc, Bool.or_eq_true, decide_eq_true_eq]
  exact le_total b.score a.score

/-- C4: on success, Rerank returns a permutation of the score-updated input
(which differs from the input only in score fields), sorted by score
descending, and among results of equal score the original relative order is
preserved (the filtered subsequence at every score value is unchanged). -/
theorem c4_reranking_perm_sorted_stable
    (idxO : List Result → Except String (List MatchRes)) (results : List Result)
    (ms : List MatchRes) (h : idxO results = Except.ok ms) :
    reranking idxO results = Except.ok ((applyScores ms results).mergeSort scoreDesc) ∧
    ((applyScores ms results).mergeSort scoreDesc).Perm (applyScores ms results) ∧
    (applyScores ms results).map stripScore = results.map stripScore ∧
    List.Pairwise (fun a b : Result => b.score ≤ a.score)
      ((applyScores ms results).mergeSort scoreDesc) ∧
    ∀ s : ℚ, ((applyScores ms results).mergeSort scoreDesc).filter (fun r => r.score == s)
      = (applyScores ms results).filter (fun r => r.score == s) := by
  refine ⟨by simp [reranking, h], List.mergeSort_perm _ _, ?_, ?_, ?_⟩
  · rw [applyScores, List.map_map]
    refine List.map_congr_left fun r _ => ?_
    cases hm : scoreMapOf ms r.uuid <;> simp [stripScore, hm]
  · have := List.sorted_mergeSort scoreDesc_trans scoreDesc_total (applyScores ms results)
    exact this.imp fun hab => by simpa [scoreDesc] using hab
  · intro s
    set l := applyScores ms results with hl
    set p : Result → Bool := fun r => r.score == s with hp
    have hmem : ∀ a ∈ l.filter p, p a = true := fun a ha => (List.mem_filter.mp ha).2
    have hPair : (l.filter p).Pairwise (fun a b => scoreDesc a b = true) := by
      refine List.pairwise_of_forall_mem_list fun a ha b hb => ?_
      have ha' : a.score = s := by simpa [hp] using hmem a ha
      have hb' : b.score = s := by simpa [hp] using hmem b hb
      simp [scoreDesc, ha', hb']
    have hstable : (l.filter p).Sublist (l.mergeSort scoreDesc) :=
      List.sublist_mergeSort scoreDesc_trans scoreDesc_total hPair (List.filter_sublist l)
    have h1 : (l.filter p).Sublist ((l.mergeSort scoreDesc).filter p) := by
      have := hstable.filter p
      rwa [List.filter_filter, show (fun a => p a && p a) = p from funext fun a => by
        cases p a <;> rfl] at this
    have h2 : ((l.mergeSort scoreDesc).filter p).Perm (l.filter p) :=
      (List.mergeSort_perm l scoreDesc).filter p
    exact (h1.eq_of_length (by rw [h2.length_eq])).symm

/-- Witness for C4: with an index returning no matches, reranking a singleton
list succeeds and returns it unchanged. -/
theorem c4_reranking_perm_sorted_stable_witness :
    reranking (fun _ => Except.ok []) [c4Res] = Except.ok [c4Res] := by
  have h := (c4_reranking_perm_sorted_stable (fun _ => Except.ok []) [c4Res] [] rfl).1
  simpa [applyScores, scoreMapOf] using h

end RagSearch
